import Mathlib

/-!
A shallow embedding of the per-room session coordinator of the
`workerchat-with-e2ee` repository (`src/models.ts`, class `ChatRoom`),
together with proofs checking its natural-language specification.

Modelling conventions:
* A WebSocket channel is an opaque handle, modelled as `Nat` (`Chan`).
* `Map<WebSocket, UserInfo>` is an insertion-ordered association list
  (`List (Chan × UserInfo)`); `Set<WebSocket>` is an insertion-ordered
  duplicate-free list.  JavaScript `Map.set` updates an existing key in
  place, `delete` removes it, and iteration follows insertion order.
* A channel whose transport is dead makes `send` throw; this is the
  exception source modelled for sends, captured by an environment
  `D : Chan → Bool` (`D c = true` means `c.send(..)` throws).
  `WebSocket.close()` is modelled as never throwing.
* The `openpgp.readKey` / `getPrimaryUser` collaborator is external to the
  repository; its outcome is an input `Option ParsedKey` (`none` = the
  collaborator threw).  The random suffix `Math.random().toString(36).substr(2, 8)`
  is an input string `rand`.
* JavaScript bitwise operators coerce through ToInt32; this is modelled on
  `Int` with the explicit reduction `toInt32` (wrap modulo 2^32 into the
  signed range).  `charCodeAt` enumerates UTF-16 code units (`jsCharCodes`).
-/

namespace WorkerChat

abbrev Chan := Nat

/-- The JavaScript whitespace class `\s` (also the character set removed by
`String.prototype.trim`): space, tab, line terminators, NBSP, BOM and the
Unicode space separators. -/
def jsWsChar (c : Char) : Bool :=
  let n := c.toNat
  n == 0x20 || n == 0x9 || n == 0xa || n == 0xb || n == 0xc || n == 0xd ||
  n == 0xa0 || n == 0x1680 || (decide (0x2000 ≤ n) && decide (n ≤ 0x200a)) ||
  n == 0x2028 || n == 0x2029 || n == 0x202f || n == 0x205f || n == 0x3000 || n == 0xfeff

/-- JavaScript `String.prototype.trim`. -/
def jsTrim (s : String) : String :=
  ⟨((s.data.dropWhile jsWsChar).reverse.dropWhile jsWsChar).reverse⟩

/-- JavaScript `s.replace(/\s+/g, '')`: removing every maximal whitespace run
is removing every whitespace character. -/
def stripWs (s : String) : String :=
  ⟨s.data.filter (fun c => !jsWsChar c)⟩

/-- JavaScript `s.includes(c)` for a single character. -/
def strContainsChar (s : String) (c : Char) : Bool :=
  s.data.any (fun x => x == c)

/-- JavaScript `s.toUpperCase()` (ASCII range, which covers the hex
fingerprints this code uppercases). -/
def jsToUpper (s : String) : String :=
  ⟨s.data.map Char.toUpper⟩

/-- JavaScript `s.toLowerCase()` (ASCII range). -/
def jsToLower (s : String) : String :=
  ⟨s.data.map Char.toLower⟩

def splitNlChars : List Char → List (List Char)
  | [] => [[]]
  | c :: rest =>
    let r := splitNlChars rest
    if c == '\n' then [] :: r
    else
      match r with
      | [] => [[c]]
      | h :: t => (c :: h) :: t

/-- JavaScript `s.split('\n')`. -/
def jsSplitNl (s : String) : List String :=
  (splitNlChars s.data).map (fun l => ⟨l⟩)

/-- The JavaScript word class `\w` = `[A-Za-z0-9_]`. -/
def isWordChar (c : Char) : Bool :=
  (decide ('a' ≤ c) && decide (c ≤ 'z')) || (decide ('A' ≤ c) && decide (c ≤ 'Z')) ||
  (decide ('0' ≤ c) && decide (c ≤ '9')) || c == '_'

/-- JavaScript `.` in a regex without the `s` flag: any character except a
line terminator. -/
def dotChar (c : Char) : Bool :=
  !(c == '\n' || c == '\r' || c.toNat == 0x2028 || c.toNat == 0x2029)

def listStarts : List Char → List Char → Bool
  | [], _ => true
  | _ :: _, [] => false
  | a :: as, b :: bs => a == b && listStarts as bs

def listHasSub (pat : List Char) : List Char → Bool
  | [] => pat.isEmpty
  | c :: rest => listStarts pat (c :: rest) || listHasSub pat rest

/-- JavaScript `s.includes(pat)`. -/
def jsIncludes (s pat : String) : Bool :=
  listHasSub pat.data s.data

/-- The UTF-16 code units of one code point (JavaScript strings are UTF-16;
`charCodeAt` yields these units). -/
def utf16Units (c : Char) : List Nat :=
  let n := c.toNat
  if n < 0x10000 then [n]
  else [0xd800 + (n - 0x10000) / 0x400, 0xdc00 + (n - 0x10000) % 0x400]

/-- The sequence `s.charCodeAt(0), …, s.charCodeAt(s.length - 1)`. -/
def jsCharCodes (s : String) : List Nat :=
  s.data.flatMap utf16Units

/-- ECMAScript ToInt32: wrap modulo 2^32 into the signed 32-bit range. -/
def toInt32 (x : Int) : Int :=
  let m := x % 4294967296
  if m < 2147483648 then m else m - 4294967296

/-- One iteration of the loop in `generateUserIdFromKey`:
`hash = ((hash << 5) - hash) + char; hash = hash & hash;`.
`hash << 5` is ToInt32(ToInt32(hash) · 32); the `- hash + char` arithmetic is
exact in doubles at these magnitudes; `hash & hash` is ToInt32. -/
def jsHashStep (h : Int) (c : Nat) : Int :=
  toInt32 (toInt32 (toInt32 h * 32) - h + (c : Int))

/-- JavaScript `s.padStart(n, c)`. -/
def padStart (s : String) (n : Nat) (c : Char) : String :=
  if n ≤ s.length then s else ⟨List.replicate (n - s.length) c⟩ ++ s

/-- JavaScript `n.toString(16)` for a nonnegative integer: lowercase hex. -/
def natHexLower (n : Nat) : String :=
  (Nat.toDigits 16 n).asString

/-- `ChatRoom.generateUserIdFromKey`: the weak rolling hash over the armored
text, absolute value, lowercase hex, left-padded with zeros to length 8. -/
def generateUserIdFromKey (publicKey : String) : String :=
  let h := (jsCharCodes publicKey).foldl jsHashStep 0
  padStart (natHexLower h.natAbs) 8 '0'

/-- A primitive JavaScript value, as far as the coordinator inspects inbound
frames: enough to model truthiness, `typeof x === 'string'` and template
interpolation. -/
inductive JSVal where
  | undef
  | null
  | bool (b : Bool)
  | num (n : Int)
  | str (s : String)
deriving DecidableEq, Repr

def JSVal.truthy : JSVal → Bool
  | .undef => false
  | .null => false
  | .bool b => b
  | .num n => n != 0
  | .str s => s != ""

def JSVal.isStr : JSVal → Bool
  | .str _ => true
  | _ => false

def JSVal.asStr : JSVal → String
  | .str s => s
  | _ => ""

/-- Template-literal interpolation of a value, as in the
`Unknown message type` reply, which splices `message.type` into the text. -/
def JSVal.display : JSVal → String
  | .undef => "undefined"
  | .null => "null"
  | .bool true => "true"
  | .bool false => "false"
  | .num n => toString n
  | .str s => s

/-- An inbound frame as the handlers see it: property access on a JS object,
an absent property reading as `undefined`. -/
structure InMsg where
  type : JSVal
  publicKey : JSVal
  encryptedData : JSVal
  timestamp : JSVal
deriving DecidableEq, Repr

/-- The possible results of a successful `JSON.parse` at top level, as far as
property access on them differs: an object (or array), the literal `null`
(property access throws a TypeError), or a boxed primitive (property access
yields `undefined`). -/
inductive JDoc where
  | jnull
  | jobj (m : InMsg)
  | jatom (v : JSVal)
deriving DecidableEq, Repr

inductive UserRole where
  | guest
  | user
  | admin
deriving DecidableEq, Repr

structure UserInfo where
  id : String
  name : String
  email : String
  publicKey : String
  webSocket : Chan
  role : UserRole
deriving DecidableEq, Repr

structure UserProfile where
  id : String
  name : String
  email : String
deriving DecidableEq, Repr

structure RosterEntry where
  id : String
  name : String
  email : String
  publicKey : String
deriving DecidableEq, Repr

/-- Outbound frames (before JSON serialization). -/
inductive Frame where
  | registered (profile : UserProfile)
  | userList (users : List RosterEntry)
  | encryptedMessage (senderId : String) (encryptedData : String) (timestamp : Int)
  | error (message : String)
deriving DecidableEq, Repr

/-- Observable effects of a handler invocation.  `sent` is a successful
`send`, `dropped` an attempted `send` that threw (dead transport),
`closed` a `close()` call, `serialized` the one `JSON.stringify` a
broadcast pass performs before its loop. -/
inductive Eff where
  | serialized (f : Frame)
  | sent (c : Chan) (f : Frame)
  | dropped (c : Chan) (f : Frame)
  | closed (c : Chan)
deriving DecidableEq, Repr

/-- `ChatRoom`'s mutable room state: `users : Map<WebSocket, UserInfo>` and
`sessions : Set<WebSocket>`. -/
structure RoomState where
  users : List (Chan × UserInfo)
  sessions : List Chan
deriving DecidableEq, Repr

/-- Successful outcome of the external key-parsing collaborator
(`openpgp.readKey` + `getPrimaryUser`): the fingerprint and the primary
user-ID string.  `userID = none` models a falsy `primaryUser.user.userID`;
`userID.userID || ''` defaulting is folded into the carried string. -/
structure ParsedKey where
  fingerprint : String
  userID : Option String
deriving DecidableEq, Repr

/-- The two external inputs of one registration: the key-parse outcome
(`none` = the collaborator threw) and the random suffix drawn by
`Math.random().toString(36).substr(2, 8)`. -/
structure RegEnv where
  parse : Option ParsedKey
  rand : String
deriving DecidableEq, Repr

/-- The tail `\s*<([^>]+)>$` of the user-ID regex, applied to the characters
after the lazy group: skip whitespace greedily (no backtracking can help,
`<` is not whitespace), require `<`, then the rest must be a non-empty
`>`-free inner group followed by a final `>` at end of input. -/
def tailNE : List Char → Option (List Char)
  | [] => none
  | c :: rest =>
    if c == '<' then
      let inner := rest.takeWhile (fun x => x != '>')
      if inner.isEmpty then none
      else if rest.drop inner.length == ['>'] then some inner else none
    else if jsWsChar c then tailNE rest
    else none

/-- The anchored lazy match `^(.+?)\s*<([^>]+)>$`: try the shortest group-1
first (laziness), each group-1 character matched by `.` (no line
terminators). -/
def neScan (pre : List Char) : List Char → Option (List Char × List Char)
  | [] => none
  | c :: rest =>
    if dotChar c then
      match tailNE rest with
      | some inner => some (pre ++ [c], inner)
      | none => neScan (pre ++ [c]) rest
    else none

/-- `userIdString.match(/^(.+?)\s*<([^>]+)>$/)`, returning the two groups. -/
def nameEmailMatch (s : String) : Option (String × String) :=
  (neScan [] s.data).map (fun r => (r.1.asString, r.2.asString))

def isWordOrWsChar (c : Char) : Bool :=
  isWordChar c || jsWsChar c

/-- One anchored attempt of the unanchored fallback regex
`/([\w\s]+)\s*<([^>]+)>/`: the greedy `[\w\s]+` takes the maximal run (the
first successful backtracking split leaves `\s*` empty, and no smaller
split can reach a different `<`), then `<`, a non-empty `>`-free inner
group, and `>`. -/
def fbMatchAt (l : List Char) : Option (List Char × List Char) :=
  let run := l.takeWhile isWordOrWsChar
  if run.isEmpty then none
  else
    match l.dropWhile isWordOrWsChar with
    | '<' :: tail =>
      let inner := tail.takeWhile (fun x => x != '>')
      if inner.isEmpty then none
      else if (tail.drop inner.length).head? == some '>' then some (run, inner) else none
    | _ => none

/-- Leftmost unanchored search with the fallback regex: try each start
position left to right, exactly as the backtracking engine does. -/
def fbScan : List Char → Option (List Char × List Char)
  | [] => none
  | c :: rest =>
    match fbMatchAt (c :: rest) with
    | some r => some r
    | none => fbScan rest

/-- The name/email derivation from the primary user-ID string in
`extractUserProfile`: (i) the `Name <email>` pattern with both groups
trimmed, else (ii) a string containing `@` taken whole (trimmed) as the
email with the part before `@` as name (`email.split('@')[0]`), else
(iii) the trimmed string as name, email empty. -/
def parseNameEmail (uid : String) : String × String :=
  match nameEmailMatch uid with
  | some (g1, g2) => (jsTrim g1, jsTrim g2)
  | none =>
    if strContainsChar uid '@' then
      let e := jsTrim uid
      (⟨e.data.takeWhile (fun c => c != '@')⟩, e)
    else (jsTrim uid, "")

/-- The successful-parse branch of `extractUserProfile`: derive name/email
from the user-ID string (empty if the userID packet is falsy), take the
fingerprint uppercased as id, then synthesize defaults for an empty name
(`User_` + random suffix) and an empty email (lowercased, whitespace-stripped
name + `@example.com`). -/
def extractOk (pk : ParsedKey) (rand : String) : UserProfile :=
  let ne := match pk.userID with
    | some uid => parseNameEmail uid
    | none => ("", "")
  let id := jsToUpper pk.fingerprint
  let name := if ne.1 == "" then "User_" ++ rand else ne.1
  let email := if ne.2 == "" then stripWs (jsToLower name) ++ "@example.com" else ne.2
  ⟨id, name, email⟩

/-- `ChatRoom.fallbackExtractUserProfile`: defaults first, id from the weak
hash, then scan the armored text line by line; every line containing
`Comment:` or `Name:` is matched against `/([\w\s]+)\s*<([^>]+)>/` and the
last match overwrites name and email (groups trimmed). -/
def fallbackExtractUserProfile (publicKey : String) (rand : String) : UserProfile :=
  let name0 := "User_" ++ rand
  let email0 := jsToLower name0 ++ "@example.com"
  let id := generateUserIdFromKey publicKey
  let ne := (jsSplitNl publicKey).foldl
    (fun acc line =>
      if jsIncludes line "Comment:" || jsIncludes line "Name:" then
        match fbScan line.data with
        | some r => (jsTrim r.1.asString, jsTrim r.2.asString)
        | none => acc
      else acc)
    (name0, email0)
  ⟨id, ne.1, ne.2⟩

/-- `ChatRoom.extractUserProfile`: the whole body is wrapped in try/catch;
a throwing key-parse collaborator (`parse = none`) resolves to the fallback
path and nothing propagates to the caller. -/
def extractUserProfile (parse : Option ParsedKey) (rand : String) (publicKeyArmored : String) :
    UserProfile :=
  match parse with
  | some pk => extractOk pk rand
  | none => fallbackExtractUserProfile publicKeyArmored rand

/-- `Map.get`. -/
def mapGet (m : List (Chan × UserInfo)) (k : Chan) : Option UserInfo :=
  (m.find? (fun e => e.1 == k)).map (fun e => e.2)

/-- `Map.set`: update in place if the key is present (keys are unique in a
JS map), append otherwise. -/
def mapSet : List (Chan × UserInfo) → Chan → UserInfo → List (Chan × UserInfo)
  | [], k, v => [(k, v)]
  | e :: rest, k, v => if e.1 == k then (k, v) :: rest else e :: mapSet rest k v

/-- `Map.delete` (idempotent). -/
def mapDelete (m : List (Chan × UserInfo)) (k : Chan) : List (Chan × UserInfo) :=
  m.filter (fun e => e.1 != k)

/-- `Set.add` (no-op if present). -/
def setAdd (s : List Chan) (c : Chan) : List Chan :=
  if s.contains c then s else s ++ [c]

/-- `Set.delete` (idempotent). -/
def setDelete (s : List Chan) (c : Chan) : List Chan :=
  s.filter (fun x => x != c)

/-- Boolean list membership used to state filter characterizations. -/
def memB (c : Chan) : List Chan → Bool
  | [] => false
  | a :: l => c == a || memB c l

/-- `ChatRoom.isValidPGPPublicKey`. -/
def isValidPGPPublicKey (publicKey : String) : Bool :=
  jsIncludes publicKey "-----BEGIN PGP PUBLIC KEY BLOCK-----" &&
  jsIncludes publicKey "-----END PGP PUBLIC KEY BLOCK-----"

/-- `ChatRoom.isValidPGPMessage`. -/
def isValidPGPMessage (message : String) : Bool :=
  jsIncludes message "-----BEGIN PGP MESSAGE-----" &&
  jsIncludes message "-----END PGP MESSAGE-----"

/-- `ChatRoom.findUserById`: first user (in insertion order of the map's
values) whose id equals the argument. -/
def findUserById (st : RoomState) (id : String) : Option UserInfo :=
  (st.users.map (fun e => e.2)).find? (fun u => u.id == id)

/-- An attempted `send` whose exception (if any) is swallowed by the caller
(`sendError`); the effect records the outcome. -/
def sendEff (D : Chan → Bool) (c : Chan) (f : Frame) : Eff :=
  if D c then Eff.dropped c f else Eff.sent c f

/-- The roster projection used by `handleGetUsers` and
`broadcastUserList`. -/
def rosterOf (st : RoomState) : List RosterEntry :=
  st.users.map (fun e => ⟨e.2.id, e.2.name, e.2.email, e.2.publicKey⟩)

/-- The loop of `ChatRoom.broadcast`.  The source iterates the live
`this.sessions` set, but the body only ever deletes the element currently
being visited, so the iteration visits exactly the members present when the
loop started: the list argument is that membership.  A failing send removes
the target from both `sessions` and `users` and the loop continues. -/
def broadcastLoop (f : Frame) (D : Chan → Bool) :
    List Chan → RoomState → RoomState × List Eff
  | [], st => (st, [])
  | s :: rest, st =>
    if D s then
      let st1 : RoomState := ⟨mapDelete st.users s, setDelete st.sessions s⟩
      let r := broadcastLoop f D rest st1
      (r.1, Eff.dropped s f :: r.2)
    else
      let r := broadcastLoop f D rest st
      (r.1, Eff.sent s f :: r.2)

/-- `ChatRoom.broadcast`: serialize once, then the delivery loop. -/
def broadcast (f : Frame) (D : Chan → Bool) (st : RoomState) : RoomState × List Eff :=
  let r := broadcastLoop f D st.sessions st
  (r.1, Eff.serialized f :: r.2)

/-- `ChatRoom.broadcastUserList`. -/
def broadcastUserList (D : Chan → Bool) (st : RoomState) : RoomState × List Eff :=
  broadcast (Frame.userList (rosterOf st)) D st

/-- `ChatRoom.handleGetUsers`.  Its `webSocket.send` is not wrapped in a
try/catch of its own, so a throwing send propagates to the caller; the third
component records that. -/
def handleGetUsers (ws : Chan) (D : Chan → Bool) (st : RoomState) :
    RoomState × List Eff × Bool :=
  let f := Frame.userList (rosterOf st)
  if D ws then (st, [Eff.dropped ws f], true) else (st, [Eff.sent ws f], false)

/-- `ChatRoom.handleChatMessage`: reject on the first violated precondition
(unregistered sender, falsy/non-string payload, missing PGP markers) with a
single targeted error, otherwise broadcast the relay frame with the
server-assigned timestamp `now` (`Date.now()`). -/
def handleChatMessage (ws : Chan) (m : InMsg) (now : Int) (D : Chan → Bool) (st : RoomState) :
    RoomState × List Eff :=
  match mapGet st.users ws with
  | none => (st, [sendEff D ws (Frame.error "User not registered")])
  | some sender =>
    if !(m.encryptedData.truthy && m.encryptedData.isStr) then
      (st, [sendEff D ws (Frame.error "Invalid encrypted data format")])
    else if !(isValidPGPMessage m.encryptedData.asStr) then
      (st, [sendEff D ws (Frame.error "Invalid PGP message format")])
    else
      broadcast (Frame.encryptedMessage sender.id m.encryptedData.asStr now) D st

/-- The body of `ChatRoom.handleRegister` after its two precondition checks
(the part of the source's try block that can still mutate state or throw).
Eviction: if some user with the same id is bound to a different channel,
delete that channel from the map and close it.  Then bind, reply
`registered`, and rebroadcast the roster.  The reply `webSocket.send` is the
one uncaught throw site: if it throws (`D ws`), the catch arm reports
`Registration failed` and the broadcast never runs — the already-performed
eviction and binding are not rolled back. -/
def registerCore (ws : Chan) (key : String) (env : RegEnv) (D : Chan → Bool) (st : RoomState) :
    RoomState × List Eff :=
  let prof := extractUserProfile env.parse env.rand key
  let info : UserInfo := ⟨prof.id, prof.name, prof.email, key, ws, UserRole.guest⟩
  let evict : Option Chan :=
    match findUserById st prof.id with
    | some ex => if ex.webSocket == ws then none else some ex.webSocket
    | none => none
  let st1 : RoomState :=
    match evict with
    | some oldWs => ⟨mapDelete st.users oldWs, st.sessions⟩
    | none => st
  let evictEffs : List Eff :=
    match evict with
    | some oldWs => [Eff.closed oldWs]
    | none => []
  let st2 : RoomState := ⟨mapSet st1.users ws info, st1.sessions⟩
  let regd := Frame.registered ⟨prof.id, prof.name, prof.email⟩
  if D ws then
    (st2, evictEffs ++ [Eff.dropped ws regd, sendEff D ws (Frame.error "Registration failed")])
  else
    let r := broadcastUserList D st2
    (r.1, evictEffs ++ [Eff.sent ws regd] ++ r.2)

/-- `ChatRoom.handleRegister`: the two precondition checks reply with a
targeted validation error and change nothing; otherwise run the
transition. -/
def handleRegister (ws : Chan) (m : InMsg) (env : RegEnv) (D : Chan → Bool) (st : RoomState) :
    RoomState × List Eff :=
  if !(m.publicKey.truthy && m.publicKey.isStr) then
    (st, [sendEff D ws (Frame.error "Invalid public key format")])
  else if !(isValidPGPPublicKey m.publicKey.asStr) then
    (st, [sendEff D ws (Frame.error "Invalid PGP public key format")])
  else
    registerCore ws m.publicKey.asStr env D st

/-- `ChatRoom.handleDisconnect`: remove from both containers, then roster
rebroadcast. -/
def handleDisconnect (ws : Chan) (D : Chan → Bool) (st : RoomState) : RoomState × List Eff :=
  broadcastUserList D ⟨mapDelete st.users ws, setDelete st.sessions ws⟩

/-- `ChatRoom.handleMessage`: dispatch on the `type` discriminator (strict
string equality in the switch).  The `register` arm is an un-awaited async
call, so nothing it does can throw into this frame's listener; the
`getUsers` arm can (unprotected send). -/
def handleMessage (ws : Chan) (m : InMsg) (env : RegEnv) (now : Int) (D : Chan → Bool)
    (st : RoomState) : RoomState × List Eff × Bool :=
  if m.type == JSVal.str "register" then
    let r := handleRegister ws m env D st
    (r.1, r.2, false)
  else if m.type == JSVal.str "getUsers" then
    handleGetUsers ws D st
  else if m.type == JSVal.str "message" then
    let r := handleChatMessage ws m now D st
    (r.1, r.2, false)
  else
    (st, [sendEff D ws (Frame.error ("Unknown message type: " ++ m.type.display))], false)

/-- Property access on a boxed primitive yields `undefined` for every
field. -/
def undefMsg : InMsg :=
  ⟨JSVal.undef, JSVal.undef, JSVal.undef, JSVal.undef⟩

/-- The `message` listener installed by `handleSession`:
`try { const message = JSON.parse(event.data); this.handleMessage(webSocket, message); }
catch { this.sendError(webSocket, 'Invalid JSON format'); }`.
`payload = none` is a `JSON.parse` throw.  A decoded top-level `null` makes
`switch (message.type)` throw a TypeError inside the same try, producing the
same `Invalid JSON format` reply.  An exception escaping a handler
(unprotected send in `handleGetUsers`) lands in the same catch. -/
def onMessage (ws : Chan) (payload : Option JDoc) (env : RegEnv) (now : Int) (D : Chan → Bool)
    (st : RoomState) : RoomState × List Eff :=
  match payload with
  | none => (st, [sendEff D ws (Frame.error "Invalid JSON format")])
  | some JDoc.jnull => (st, [sendEff D ws (Frame.error "Invalid JSON format")])
  | some (JDoc.jobj m) =>
    let r := handleMessage ws m env now D st
    if r.2.2 then (r.1, r.2.1 ++ [sendEff D ws (Frame.error "Invalid JSON format")])
    else (r.1, r.2.1)
  | some (JDoc.jatom _) =>
    let r := handleMessage ws undefMsg env now D st
    if r.2.2 then (r.1, r.2.1 ++ [sendEff D ws (Frame.error "Invalid JSON format")])
    else (r.1, r.2.1)

/-- Connection registration at handshake completion (`handleSession`). -/
def handleSession (ws : Chan) (st : RoomState) : RoomState :=
  ⟨st.users, setAdd st.sessions ws⟩

/-- Modelled from the spec, for comparison with the source hash: one step of
the rolling hash `h := h * 31 + charCode`, truncated to a signed 32-bit
integer with overflow wraparound. -/
def specHashStep (h : Int) (c : Nat) : Int :=
  toInt32 (h * 31 + (c : Int))

/-- Modelled from the spec: the rolling hash over all character codes. -/
def specRollingHash (s : String) : Int :=
  (jsCharCodes s).foldl specHashStep 0

/-- Modelled from the spec: the weak fallback id — the rolling hash's
absolute value in lowercase hexadecimal, zero-padded to 8 characters. -/
def specWeakHashId (s : String) : String :=
  padStart (natHexLower (specRollingHash s).natAbs) 8 '0'

/-! ## Arithmetic facts about the 32-bit rolling hash -/

theorem toInt32_emod (a : Int) : toInt32 a % 4294967296 = a % 4294967296 := by
  unfold toInt32
  dsimp only
  split <;> omega

theorem toInt32_congr {a b : Int} (h : a % 4294967296 = b % 4294967296) :
    toInt32 a = toInt32 b := by
  unfold toInt32
  rw [h]

/-- One hash-loop iteration equals the specified `h * 31 + c` step modulo the
32-bit wraparound: `(h << 5) - h + c` reduced by ToInt32 agrees with
`31 * h + c` reduced by ToInt32, whatever intermediate reductions happened. -/
theorem jsHashStep_eq (h : Int) (c : Nat) : jsHashStep h c = specHashStep h c := by
  unfold jsHashStep specHashStep
  apply toInt32_congr
  have h1 := toInt32_emod h
  have h2 := toInt32_emod (toInt32 h * 32)
  omega

theorem foldl_hash_eq (l : List Nat) (a : Int) :
    l.foldl jsHashStep a = l.foldl specHashStep a := by
  induction l generalizing a with
  | nil => rfl
  | cons c rest ih => simp only [List.foldl_cons, jsHashStep_eq, ih]

theorem generateUserIdFromKey_eq_spec (s : String) :
    generateUserIdFromKey s = specWeakHashId s := by
  unfold generateUserIdFromKey specWeakHashId specRollingHash
  rw [foldl_hash_eq]

/-! ## The broadcast pass -/

theorem memB_iff_mem {c : Chan} {l : List Chan} : memB c l = true ↔ c ∈ l := by
  induction l with
  | nil => simp [memB]
  | cons a t ih => simp [memB, ih]

theorem countP_beq_of_nodup (c : Chan) (l : List Chan) (hnd : l.Nodup) (hc : c ∈ l) :
    l.countP (fun x => x == c) = 1 := by
  induction l with
  | nil => cases hc
  | cons a t ih =>
    rw [List.countP_cons]
    rcases List.mem_cons.mp hc with rfl | hct
    · have hnt : c ∉ t := (List.nodup_cons.mp hnd).1
      have : t.countP (fun x => x == c) = 0 := by
        rw [List.countP_eq_zero]
        intro x hx
        simp only [beq_iff_eq]
        exact fun h => hnt (h ▸ hx)
      simp [this]
    · have hne : a ≠ c := by
        rintro rfl
        exact (List.nodup_cons.mp hnd).1 hct
      have := ih (List.nodup_cons.mp hnd).2 hct
      simp [this, hne]

/-- Characterization of the broadcast loop over the membership `l` present
when the loop starts: every element of `l` is visited exactly once in order,
a failing target is removed from both containers, and nothing else
changes. -/
theorem broadcastLoop_spec (f : Frame) (D : Chan → Bool) (l : List Chan) (st : RoomState) :
    broadcastLoop f D l st =
      (⟨st.users.filter (fun e => !(D e.1 && memB e.1 l)),
        st.sessions.filter (fun c => !(D c && memB c l))⟩,
       l.map (fun c => if D c then Eff.dropped c f else Eff.sent c f)) := by
  induction l generalizing st with
  | nil =>
    simp [broadcastLoop, memB]
  | cons s rest ih =>
    by_cases hD : D s = true
    · have husers : (mapDelete st.users s).filter (fun e => !(D e.1 && memB e.1 rest))
          = st.users.filter (fun e => !(D e.1 && memB e.1 (s :: rest))) := by
        unfold mapDelete
        rw [List.filter_filter]
        apply List.filter_congr
        intro e _
        by_cases h : e.1 = s
        · simp [h, hD, memB]
        · simp [h, bne, beq_eq_false_iff_ne.mpr h, memB]
      have hsess : (setDelete st.sessions s).filter (fun c => !(D c && memB c rest))
          = st.sessions.filter (fun c => !(D c && memB c (s :: rest))) := by
        unfold setDelete
        rw [List.filter_filter]
        apply List.filter_congr
        intro c _
        by_cases h : c = s
        · simp [h, hD, memB]
        · simp [h, bne, beq_eq_false_iff_ne.mpr h, memB]
      simp only [broadcastLoop, hD, if_true, ih, husers, hsess, List.map_cons]
    · have hD' : D s = false := by
        cases hb : D s
        · rfl
        · exact absurd hb hD
      have husers : st.users.filter (fun e => !(D e.1 && memB e.1 rest))
          = st.users.filter (fun e => !(D e.1 && memB e.1 (s :: rest))) := by
        apply List.filter_congr
        intro e _
        by_cases h : e.1 = s
        · simp [h, hD', memB]
        · simp [h, bne, beq_eq_false_iff_ne.mpr h, memB]
      have hsess : st.sessions.filter (fun c => !(D c && memB c rest))
          = st.sessions.filter (fun c => !(D c && memB c (s :: rest))) := by
        apply List.filter_congr
        intro c _
        by_cases h : c = s
        · simp [h, hD', memB]
        · simp [h, bne, beq_eq_false_iff_ne.mpr h, memB]
      simp only [broadcastLoop, hD', Bool.false_eq_true, if_false, ih, husers, hsess,
        List.map_cons]

/-- `broadcast` in closed form: one serialization, one attempt per live
channel in order, failing targets dropped from both containers. -/
theorem broadcast_spec (f : Frame) (D : Chan → Bool) (st : RoomState) :
    broadcast f D st =
      (⟨st.users.filter (fun e => !(D e.1 && memB e.1 st.sessions)),
        st.sessions.filter (fun c => !(D c))⟩,
       Eff.serialized f ::
         st.sessions.map (fun c => if D c then Eff.dropped c f else Eff.sent c f)) := by
  unfold broadcast
  rw [broadcastLoop_spec]
  have hsess : st.sessions.filter (fun c => !(D c && memB c st.sessions))
      = st.sessions.filter (fun c => !(D c)) := by
    apply List.filter_congr
    intro c hc
    rw [memB_iff_mem.mpr hc]
    simp
  rw [hsess]

def isSerializedEff : Eff → Bool
  | .serialized _ => true
  | _ => false

/-- Whether an effect is a delivery attempt (successful or failing) aimed at
channel `c`. -/
def attemptTo (c : Chan) : Eff → Bool
  | .sent c' _ => c' == c
  | .dropped c' _ => c' == c
  | _ => false

/-- A concrete user record for witness scenarios. -/
def demoUser (c : Chan) : UserInfo :=
  ⟨"id", "name", "mail", "key", c, UserRole.guest⟩

def demoD (c : Chan) : Bool := c == 1

def demoFrame : Frame := Frame.error "x"

def demoState : RoomState := ⟨[(1, demoUser 1), (2, demoUser 2)], [1, 2]⟩

/-- A broadcast pass serializes its frame exactly once. -/
theorem broadcast_serialized_once (f : Frame) (D : Chan → Bool) (st : RoomState) :
    ((broadcast f D st).2.filter isSerializedEff).length = 1 := by
  rw [broadcast_spec]
  have hmap : (st.sessions.map
      (fun c => if D c then Eff.dropped c f else Eff.sent c f)).filter isSerializedEff
      = [] := by
    rw [List.filter_eq_nil_iff]
    intro x hx
    obtain ⟨c, _, rfl⟩ := List.mem_map.mp hx
    by_cases hD : D c = true <;> simp [hD, isSerializedEff]
  simp [List.filter_cons, isSerializedEff, hmap]

/-- A broadcast pass attempts delivery to every channel that was live when
the pass started exactly once (its own removals neither skip nor
double-visit). -/
theorem broadcast_attempt_count (f : Frame) (D : Chan → Bool) (st : RoomState)
    (hnd : st.sessions.Nodup) (c : Chan) (hc : c ∈ st.sessions) :
    ((broadcast f D st).2.filter (attemptTo c)).length = 1 := by
  rw [broadcast_spec]
  have hhead : attemptTo c (Eff.serialized f) = false := rfl
  simp only [List.filter_cons, hhead, Bool.false_eq_true, if_false]
  rw [← List.countP_eq_length_filter, List.countP_map]
  have hfun : ∀ x : Chan,
      (attemptTo c ((fun c => if D c then Eff.dropped c f else Eff.sent c f) x))
        = (x == c) := by
    intro x
    by_cases hD : D x = true <;> simp [hD, attemptTo]
  calc st.sessions.countP
        (attemptTo c ∘ fun c => if D c then Eff.dropped c f else Eff.sent c f)
      = st.sessions.countP (fun x => x == c) := by
        apply List.countP_congr
        intro x _
        simp only [Function.comp_apply, hfun x]
    _ = 1 := countP_beq_of_nodup c st.sessions hnd hc

/-- Claim C5: a broadcast pass serializes the frame exactly once and attempts
delivery to each target independently; a delivery failure on one target
removes exactly that target from both the session set and the directory
without aborting delivery to the remaining targets, and every channel live
at the start of the pass is visited exactly once. -/
theorem c5_broadcast_pass (f : Frame) (D : Chan → Bool) (st : RoomState)
    (hnd : st.sessions.Nodup) :
    broadcast f D st =
      (⟨st.users.filter (fun e => !(D e.1 && memB e.1 st.sessions)),
        st.sessions.filter (fun c => !(D c))⟩,
       Eff.serialized f ::
         st.sessions.map (fun c => if D c then Eff.dropped c f else Eff.sent c f)) ∧
    ((broadcast f D st).2.filter isSerializedEff).length = 1 ∧
    (∀ c ∈ st.sessions, ((broadcast f D st).2.filter (attemptTo c)).length = 1) :=
  ⟨broadcast_spec f D st, broadcast_serialized_once f D st,
    fun c hc => broadcast_attempt_count f D st hnd c hc⟩

theorem c5_broadcast_pass_witness :
    demoState.sessions.Nodup ∧
    (broadcast demoFrame demoD demoState =
      (⟨demoState.users.filter (fun e => !(demoD e.1 && memB e.1 demoState.sessions)),
        demoState.sessions.filter (fun c => !(demoD c))⟩,
       Eff.serialized demoFrame ::
         demoState.sessions.map (fun c =>
           if demoD c then Eff.dropped c demoFrame else Eff.sent c demoFrame)) ∧
     ((broadcast demoFrame demoD demoState).2.filter isSerializedEff).length = 1 ∧
     (∀ c ∈ demoState.sessions,
        ((broadcast demoFrame demoD demoState).2.filter (attemptTo c)).length = 1)) :=
  ⟨by decide, c5_broadcast_pass demoFrame demoD demoState (by decide)⟩

/-- Claim C9: the fallback id is exactly the specified weak hash — rolling
`h := h * 31 + charCode` truncated to a signed 32-bit integer with overflow
wraparound, absolute value, lowercase hexadecimal, zero-padded to 8
characters — and the extracted id (uppercased fingerprint on parse success,
fallback hash on parse failure) is a deterministic pure function of the
submitted credential, independent of the random suffix and hence of the
submitting channel. -/
theorem c9_weak_hash_id :
    (∀ s : String, generateUserIdFromKey s = specWeakHashId s) ∧
    (∀ (key rand : String) (pk : ParsedKey),
      (extractUserProfile (some pk) rand key).id = jsToUpper pk.fingerprint ∧
      (extractUserProfile none rand key).id = generateUserIdFromKey key) :=
  ⟨generateUserIdFromKey_eq_spec, fun _ _ _ => ⟨rfl, rfl⟩⟩

/-! ## Chat-message relay -/

/-- Claim C1: a `message` frame from a channel with a bound directory entry
whose `encryptedData` is a non-empty string carrying both PGP-message
markers is relayed: one attempt per channel in the session set at that
moment (exactly once each, sender included), every successful delivery being
one `encryptedMessage` frame with the sender's bound id, the inbound string
verbatim, and the server-assigned timestamp — never a client-supplied
value. -/
theorem c1_message_relay (ws : Chan) (m : InMsg) (now : Int) (D : Chan → Bool)
    (st : RoomState) (sender : UserInfo) (s : String)
    (hbound : mapGet st.users ws = some sender)
    (hdata : m.encryptedData = JSVal.str s)
    (hne : s ≠ "")
    (hpgp : isValidPGPMessage s = true)
    (hnd : st.sessions.Nodup)
    (hself : ws ∈ st.sessions) :
    (handleChatMessage ws m now D st).2 =
      Eff.serialized (Frame.encryptedMessage sender.id s now) ::
        st.sessions.map (fun c =>
          if D c then Eff.dropped c (Frame.encryptedMessage sender.id s now)
          else Eff.sent c (Frame.encryptedMessage sender.id s now)) ∧
    (∀ c ∈ st.sessions,
      ((handleChatMessage ws m now D st).2.filter (attemptTo c)).length = 1) ∧
    (D ws = false →
      Eff.sent ws (Frame.encryptedMessage sender.id s now) ∈
        (handleChatMessage ws m now D st).2) ∧
    (∀ t : JSVal,
      handleChatMessage ws { m with timestamp := t } now D st =
        handleChatMessage ws m now D st) := by
  have hrun : handleChatMessage ws m now D st =
      broadcast (Frame.encryptedMessage sender.id s now) D st := by
    unfold handleChatMessage
    rw [hbound, hdata]
    have h1 : ((JSVal.str s).truthy && (JSVal.str s).isStr) = true := by
      simp [JSVal.truthy, JSVal.isStr, hne]
    rw [h1]
    simp [JSVal.asStr, hpgp]
  refine ⟨?_, ?_, ?_, ?_⟩
  · rw [hrun, broadcast_spec]
  · intro c hc
    rw [hrun]
    exact broadcast_attempt_count _ D st hnd c hc
  · intro hws
    rw [hrun, broadcast_spec]
    refine List.mem_cons_of_mem _ ?_
    have := List.mem_map_of_mem
      (fun c => if D c then Eff.dropped c (Frame.encryptedMessage sender.id s now)
        else Eff.sent c (Frame.encryptedMessage sender.id s now)) hself
    simpa [hws] using this
  · intro t
    rfl

def noD : Chan → Bool := fun _ => false

def pgpDemo : String := "-----BEGIN PGP MESSAGE-----x-----END PGP MESSAGE-----"

def c1State : RoomState := ⟨[(0, demoUser 0)], [0, 1]⟩

def c1Msg : InMsg := ⟨JSVal.str "message", JSVal.undef, JSVal.str pgpDemo, JSVal.undef⟩

theorem c1_message_relay_witness :
    (mapGet c1State.users 0 = some (demoUser 0) ∧
     c1Msg.encryptedData = JSVal.str pgpDemo ∧
     pgpDemo ≠ "" ∧
     isValidPGPMessage pgpDemo = true ∧
     c1State.sessions.Nodup ∧
     0 ∈ c1State.sessions) ∧
    ((handleChatMessage 0 c1Msg 7 noD c1State).2 =
      Eff.serialized (Frame.encryptedMessage (demoUser 0).id pgpDemo 7) ::
        c1State.sessions.map (fun c =>
          if noD c then Eff.dropped c (Frame.encryptedMessage (demoUser 0).id pgpDemo 7)
          else Eff.sent c (Frame.encryptedMessage (demoUser 0).id pgpDemo 7)) ∧
    (∀ c ∈ c1State.sessions,
      ((handleChatMessage 0 c1Msg 7 noD c1State).2.filter (attemptTo c)).length = 1) ∧
    (noD 0 = false →
      Eff.sent 0 (Frame.encryptedMessage (demoUser 0).id pgpDemo 7) ∈
        (handleChatMessage 0 c1Msg 7 noD c1State).2) ∧
    (∀ t : JSVal,
      handleChatMessage 0 { c1Msg with timestamp := t } 7 noD c1State =
        handleChatMessage 0 c1Msg 7 noD c1State)) :=
  ⟨⟨by decide, rfl, by decide, by decide, by decide, by decide⟩,
   c1_message_relay 0 c1Msg 7 noD c1State (demoUser 0) pgpDemo
     (by decide) rfl (by decide) (by decide) (by decide) (by decide)⟩

/-- Claim C4: a `message` frame is rejected on the first violated
precondition with exactly one targeted error reply and no state change:
`User not registered` for an unbound sender, `Invalid encrypted data format`
for an absent/empty/non-string payload, `Invalid PGP message format` for a
string payload missing a PGP marker. -/
theorem c4_message_preconditions (ws : Chan) (m : InMsg) (now : Int) (D : Chan → Bool)
    (st : RoomState) :
    (mapGet st.users ws = none →
      handleChatMessage ws m now D st =
        (st, [sendEff D ws (Frame.error "User not registered")])) ∧
    (∀ sender, mapGet st.users ws = some sender →
      m.encryptedData.isStr = false ∨ m.encryptedData = JSVal.str "" →
      handleChatMessage ws m now D st =
        (st, [sendEff D ws (Frame.error "Invalid encrypted data format")])) ∧
    (∀ sender s, mapGet st.users ws = some sender →
      m.encryptedData = JSVal.str s → s ≠ "" → isValidPGPMessage s = false →
      handleChatMessage ws m now D st =
        (st, [sendEff D ws (Frame.error "Invalid PGP message format")])) := by
  refine ⟨?_, ?_, ?_⟩
  · intro hnone
    unfold handleChatMessage
    rw [hnone]
  · intro sender hsome hbad
    unfold handleChatMessage
    rw [hsome]
    have h1 : (m.encryptedData.truthy && m.encryptedData.isStr) = false := by
      rcases hbad with h | h
      · simp [h]
      · simp [h, JSVal.truthy]
    rw [h1]
    simp
  · intro sender s hsome hdata hne hbadpgp
    unfold handleChatMessage
    rw [hsome, hdata]
    have h1 : ((JSVal.str s).truthy && (JSVal.str s).isStr) = true := by
      simp [JSVal.truthy, JSVal.isStr, hne]
    rw [h1]
    simp [JSVal.asStr, hbadpgp]

theorem c4_message_preconditions_witness :
    mapGet (⟨[], [0]⟩ : RoomState).users 0 = none ∧
    handleChatMessage 0 undefMsg 0 demoD ⟨[], [0]⟩ =
      (⟨[], [0]⟩, [sendEff demoD 0 (Frame.error "User not registered")]) :=
  ⟨by decide, (c4_message_preconditions 0 undefMsg 0 demoD ⟨[], [0]⟩).1 (by decide)⟩

/-! ## Frame decode and dispatch -/

/-- Claim C6, counterexample: the inbound payload text `null` decodes
successfully, but the originating channel receives `Invalid JSON format`
(the discriminator access `message.type` throws inside the listener's try),
not an `Unknown message type: null` reply as the claim requires for a
decode success with a malformed type. -/
theorem c6_dispatch_counterexample :
    onMessage 0 (some JDoc.jnull) ⟨none, "r"⟩ 0 noD ⟨[], [0]⟩ =
      (⟨[], [0]⟩, [Eff.sent 0 (Frame.error "Invalid JSON format")]) ∧
    (onMessage 0 (some JDoc.jnull) ⟨none, "r"⟩ 0 noD ⟨[], [0]⟩).2 ≠
      [Eff.sent 0 (Frame.error ("Unknown message type: " ++ JSVal.display JSVal.null))] := by
  constructor
  · rfl
  · decide

/-- Claim C6, amended: a decode failure yields exactly one targeted
`Invalid JSON format` error and no other state change; a successful decode
of an object is dispatched on its `type` discriminator to one of
register / getUsers / message, every other type value (absent or malformed
included) producing `Unknown message type: <value>` to the originating
channel only — except a decoded top-level `null`, whose discriminator
access itself throws and yields `Invalid JSON format` instead. -/
theorem c6_dispatch_amended (ws : Chan) (env : RegEnv) (now : Int) (D : Chan → Bool)
    (st : RoomState) :
    (onMessage ws none env now D st =
      (st, [sendEff D ws (Frame.error "Invalid JSON format")])) ∧
    (onMessage ws (some JDoc.jnull) env now D st =
      (st, [sendEff D ws (Frame.error "Invalid JSON format")])) ∧
    (∀ m : InMsg, m.type = JSVal.str "register" →
      onMessage ws (some (JDoc.jobj m)) env now D st = handleRegister ws m env D st) ∧
    (∀ m : InMsg, m.type = JSVal.str "getUsers" →
      onMessage ws (some (JDoc.jobj m)) env now D st =
        if D ws then
          (st, [Eff.dropped ws (Frame.userList (rosterOf st)),
                Eff.dropped ws (Frame.error "Invalid JSON format")])
        else (st, [Eff.sent ws (Frame.userList (rosterOf st))])) ∧
    (∀ m : InMsg, m.type = JSVal.str "message" →
      onMessage ws (some (JDoc.jobj m)) env now D st = handleChatMessage ws m now D st) ∧
    (∀ m : InMsg, m.type ≠ JSVal.str "register" → m.type ≠ JSVal.str "getUsers" →
      m.type ≠ JSVal.str "message" →
      onMessage ws (some (JDoc.jobj m)) env now D st =
        (st, [sendEff D ws (Frame.error ("Unknown message type: " ++ m.type.display))])) ∧
    (∀ v : JSVal, onMessage ws (some (JDoc.jatom v)) env now D st =
      (st, [sendEff D ws (Frame.error "Unknown message type: undefined")])) := by
  refine ⟨rfl, rfl, ?_, ?_, ?_, ?_, fun v => rfl⟩
  · intro m hm
    simp [onMessage, handleMessage, hm]
  · intro m hm
    by_cases hD : D ws = true <;>
      simp [onMessage, handleMessage, handleGetUsers, hm, hD, sendEff]
  · intro m hm
    have h1 : (m.type == JSVal.str "register") = false := by
      rw [hm]; decide
    simp [onMessage, handleMessage, hm, h1]
  · intro m h1 h2 h3
    simp [onMessage, handleMessage, beq_eq_false_iff_ne.mpr h1,
      beq_eq_false_iff_ne.mpr h2, beq_eq_false_iff_ne.mpr h3]

theorem c6_dispatch_amended_witness :
    (⟨JSVal.num 42, JSVal.undef, JSVal.undef, JSVal.undef⟩ : InMsg).type ≠
        JSVal.str "register" ∧
    (⟨JSVal.num 42, JSVal.undef, JSVal.undef, JSVal.undef⟩ : InMsg).type ≠
        JSVal.str "getUsers" ∧
    (⟨JSVal.num 42, JSVal.undef, JSVal.undef, JSVal.undef⟩ : InMsg).type ≠
        JSVal.str "message" ∧
    onMessage 0 (some (JDoc.jobj ⟨JSVal.num 42, JSVal.undef, JSVal.undef, JSVal.undef⟩))
        ⟨none, "r"⟩ 0 noD ⟨[], [0]⟩ =
      ((⟨[], [0]⟩ : RoomState),
       [sendEff noD 0 (Frame.error ("Unknown message type: " ++
          (JSVal.num 42).display))]) :=
  ⟨by decide, by decide, by decide,
   (c6_dispatch_amended 0 ⟨none, "r"⟩ 0 noD ⟨[], [0]⟩).2.2.2.2.2.1
     ⟨JSVal.num 42, JSVal.undef, JSVal.undef, JSVal.undef⟩
     (by decide) (by decide) (by decide)⟩

/-! ## Registration: map lemmas and run characterizations -/

theorem mapSet_self_mem (m : List (Chan × UserInfo)) (k : Chan) (v : UserInfo) :
    (k, v) ∈ mapSet m k v := by
  induction m with
  | nil => simp [mapSet]
  | cons e rest ih =>
    by_cases h : e.1 == k
    · simp [mapSet, h]
    · simp only [mapSet, h, Bool.false_eq_true, if_false]
      exact List.mem_cons_of_mem e ih

theorem mapSet_mem {m : List (Chan × UserInfo)} {k : Chan} {v : UserInfo}
    {x : Chan × UserInfo} (h : x ∈ mapSet m k v) : x = (k, v) ∨ x ∈ m := by
  induction m with
  | nil => simpa [mapSet] using h
  | cons e rest ih =>
    by_cases he : e.1 == k
    · rw [mapSet, if_pos he] at h
      rcases List.mem_cons.mp h with rfl | hx
      · exact Or.inl rfl
      · exact Or.inr (List.mem_cons_of_mem e hx)
    · rw [mapSet, if_neg (by simp [he])] at h
      rcases List.mem_cons.mp h with hx | hx
      · exact Or.inr (by rw [hx]; exact List.mem_cons_self e rest)
      · rcases ih hx with h1 | h1
        · exact Or.inl h1
        · exact Or.inr (List.mem_cons_of_mem e h1)

theorem mem_mapDelete {m : List (Chan × UserInfo)} {k : Chan} {x : Chan × UserInfo} :
    x ∈ mapDelete m k ↔ x ∈ m ∧ x.1 ≠ k := by
  unfold mapDelete
  rw [List.mem_filter]
  simp [bne]

/-- After `Map.set`, the entries carrying the new value's id are exactly the
new binding, provided no entry at a different key carried that id and keys
are unique. -/
theorem filter_id_mapSet (m : List (Chan × UserInfo)) (k : Chan) (v : UserInfo)
    (hother : ∀ e ∈ m, e.1 ≠ k → e.2.id ≠ v.id)
    (hkeys : (m.map (fun e => e.1)).Nodup) :
    (mapSet m k v).filter (fun e => e.2.id == v.id) = [(k, v)] := by
  induction m with
  | nil => simp [mapSet]
  | cons e rest ih =>
    by_cases he : e.1 = k
    · rw [mapSet, if_pos (by simp [he])]
      have hrest : rest.filter (fun e => e.2.id == v.id) = [] := by
        rw [List.filter_eq_nil_iff]
        intro x hx
        have hxk : x.1 ≠ k := by
          intro hk
          have : e.1 ∈ rest.map (fun e => e.1) := by
            rw [he, ← hk]
            exact List.mem_map_of_mem _ hx
          exact (List.nodup_cons.mp hkeys).1 this
        have := hother x (List.mem_cons_of_mem e hx) hxk
        simp [this]
      simp [List.filter_cons, hrest]
    · rw [mapSet, if_neg (by simp [he])]
      have hid : e.2.id ≠ v.id := hother e (List.mem_cons_self e rest) he
      rw [List.filter_cons]
      have : (e.2.id == v.id) = false := by simp [hid]
      rw [this]
      simp only [Bool.false_eq_true, if_false]
      exact ih (fun x hx hxk => hother x (List.mem_cons_of_mem e hx) hxk)
        (List.nodup_cons.mp hkeys).2

/-- `Map.set` preserves uniqueness of bound ids when the new id is fresh for
every other key. -/
theorem nodup_ids_mapSet (m : List (Chan × UserInfo)) (k : Chan) (v : UserInfo)
    (hother : ∀ e ∈ m, e.1 ≠ k → e.2.id ≠ v.id)
    (hkeys : (m.map (fun e => e.1)).Nodup)
    (hids : (m.map (fun e => e.2.id)).Nodup) :
    ((mapSet m k v).map (fun e => e.2.id)).Nodup := by
  induction m with
  | nil => simp [mapSet]
  | cons e rest ih =>
    by_cases he : e.1 = k
    · rw [mapSet, if_pos (by simp [he])]
      rw [List.map_cons, List.nodup_cons]
      refine ⟨?_, (List.nodup_cons.mp hids).2⟩
      intro hv
      obtain ⟨x, hx, hxid⟩ := List.mem_map.mp hv
      have hxk : x.1 ≠ k := by
        intro hk
        have : e.1 ∈ rest.map (fun e => e.1) := by
          rw [he, ← hk]
          exact List.mem_map_of_mem _ hx
        exact (List.nodup_cons.mp hkeys).1 this
      exact hother x (List.mem_cons_of_mem e hx) hxk (by simpa using hxid)
    · rw [mapSet, if_neg (by simp [he])]
      rw [List.map_cons, List.nodup_cons]
      constructor
      · intro hv
        obtain ⟨x, hx, hxid⟩ := List.mem_map.mp hv
        rcases mapSet_mem hx with rfl | hx'
        · exact hother e (List.mem_cons_self e rest) he (by simpa using hxid.symm)
        · refine (List.nodup_cons.mp hids).1 ?_
          have : x.2.id ∈ rest.map (fun e => e.2.id) := List.mem_map_of_mem _ hx'
          rwa [hxid] at this
      · exact ih (fun x hx hxk => hother x (List.mem_cons_of_mem e hx) hxk)
          (List.nodup_cons.mp hkeys).2 (List.nodup_cons.mp hids).2

theorem filter_swap {α : Type} (p q : α → Bool) (l : List α) :
    (l.filter p).filter q = (l.filter q).filter p := by
  rw [List.filter_filter, List.filter_filter]
  apply List.filter_congr
  intro a _
  rw [Bool.and_comm]

theorem nodup_map_filter {α β : Type} {l : List α} (f : α → β)
    (p : α → Bool) (h : (l.map f).Nodup) : ((l.filter p).map f).Nodup :=
  List.Nodup.sublist
    (List.Sublist.map f (show (l.filter p).Sublist l from l.filter_sublist)) h

theorem broadcastUserList_state (D : Chan → Bool) (st : RoomState) :
    (broadcastUserList D st).1 =
      ⟨st.users.filter (fun e => !(D e.1 && memB e.1 st.sessions)),
       st.sessions.filter (fun c => !(D c))⟩ := by
  unfold broadcastUserList
  rw [broadcast_spec]

theorem findUserById_none {st : RoomState} {X : String}
    (h : findUserById st X = none) : ∀ e ∈ st.users, e.2.id ≠ X := by
  intro e he hid
  unfold findUserById at h
  rw [List.find?_eq_none] at h
  have := h e.2 (List.mem_map_of_mem _ he)
  simp [hid] at this

theorem findUserById_entry {st : RoomState} {X : String} {ex : UserInfo}
    (h : findUserById st X = some ex)
    (hwsc : ∀ e ∈ st.users, e.2.webSocket = e.1) :
    (ex.webSocket, ex) ∈ st.users ∧ ex.id = X := by
  unfold findUserById at h
  have hid : ex.id = X := by simpa using List.find?_some h
  have hmem : ex ∈ st.users.map (fun e => e.2) := List.mem_of_find?_eq_some h
  obtain ⟨e, he, rfl⟩ := List.mem_map.mp hmem
  have hws := hwsc e he
  refine ⟨?_, hid⟩
  have hpair : (e.2.webSocket, e.2) = e := by
    rw [hws]
  rw [hpair]
  exact he

theorem entry_unique_by_id {st : RoomState}
    (hids : (st.users.map (fun e => e.2.id)).Nodup)
    {e e' : Chan × UserInfo} (he : e ∈ st.users) (he' : e' ∈ st.users)
    (hid : e.2.id = e'.2.id) : e = e' :=
  List.inj_on_of_nodup_map hids he he' hid

/-- Under the directory invariants, an entry at a key other than the located
user's channel cannot carry the located id. -/
theorem no_other_id {st : RoomState} {X : String} {ex : UserInfo}
    (hids : (st.users.map (fun e => e.2.id)).Nodup)
    (hwsc : ∀ e ∈ st.users, e.2.webSocket = e.1)
    (hfind : findUserById st X = some ex) :
    ∀ e ∈ st.users, e.1 ≠ ex.webSocket → e.2.id ≠ X := by
  intro e he hne hid
  obtain ⟨hexmem, hexid⟩ := findUserById_entry hfind hwsc
  have : e = (ex.webSocket, ex) :=
    entry_unique_by_id hids he hexmem (by rw [hid, hexid])
  exact hne (by rw [this])

/-- The candidate `UserInfo` a registration binds: extracted profile, the
submitted key, the requesting channel, role fixed to guest. -/
def candInfo (ws : Chan) (env : RegEnv) (key : String) : UserInfo :=
  ⟨(extractUserProfile env.parse env.rand key).id,
   (extractUserProfile env.parse env.rand key).name,
   (extractUserProfile env.parse env.rand key).email,
   key, ws, UserRole.guest⟩

/-- The `registered` reply frame of a registration. -/
def regdFrame (env : RegEnv) (key : String) : Frame :=
  Frame.registered
    ⟨(extractUserProfile env.parse env.rand key).id,
     (extractUserProfile env.parse env.rand key).name,
     (extractUserProfile env.parse env.rand key).email⟩

/-- With a truthy string `publicKey` passing the structural check, the
register handler runs the transition body. -/
theorem handleRegister_run (ws : Chan) (m : InMsg) (env : RegEnv) (D : Chan → Bool)
    (st : RoomState) (key : String)
    (hk : m.publicKey = JSVal.str key) (hne : key ≠ "")
    (hv : isValidPGPPublicKey key = true) :
    handleRegister ws m env D st = registerCore ws key env D st := by
  unfold handleRegister
  rw [hk]
  have h1 : ((JSVal.str key).truthy && (JSVal.str key).isStr) = true := by
    simp [JSVal.truthy, JSVal.isStr, hne]
  rw [h1]
  simp [JSVal.asStr, hv]

/-- Registration run, no user with the extracted id present: bind, reply,
rebroadcast (or report failure when the reply send throws). -/
theorem registerCore_find_none (ws : Chan) (key : String) (env : RegEnv) (D : Chan → Bool)
    (st : RoomState)
    (hfind : findUserById st (extractUserProfile env.parse env.rand key).id = none) :
    registerCore ws key env D st =
      if D ws then
        (⟨mapSet st.users ws (candInfo ws env key), st.sessions⟩,
         [Eff.dropped ws (regdFrame env key),
          sendEff D ws (Frame.error "Registration failed")])
      else
        ((broadcastUserList D ⟨mapSet st.users ws (candInfo ws env key), st.sessions⟩).1,
         Eff.sent ws (regdFrame env key) ::
           (broadcastUserList D ⟨mapSet st.users ws (candInfo ws env key), st.sessions⟩).2) := by
  simp only [registerCore, candInfo, regdFrame, hfind, List.nil_append, List.cons_append,
    List.singleton_append]

/-- Registration run, same id already bound to the requesting channel
itself: no eviction, overwrite in place. -/
theorem registerCore_find_self (ws : Chan) (key : String) (env : RegEnv) (D : Chan → Bool)
    (st : RoomState) (ex : UserInfo)
    (hfind : findUserById st (extractUserProfile env.parse env.rand key).id = some ex)
    (hex : ex.webSocket = ws) :
    registerCore ws key env D st =
      if D ws then
        (⟨mapSet st.users ws (candInfo ws env key), st.sessions⟩,
         [Eff.dropped ws (regdFrame env key),
          sendEff D ws (Frame.error "Registration failed")])
      else
        ((broadcastUserList D ⟨mapSet st.users ws (candInfo ws env key), st.sessions⟩).1,
         Eff.sent ws (regdFrame env key) ::
           (broadcastUserList D ⟨mapSet st.users ws (candInfo ws env key), st.sessions⟩).2) := by
  have hb : (ex.webSocket == ws) = true := by simp [hex]
  simp only [registerCore, candInfo, regdFrame, hfind, hb, if_true, List.nil_append,
    List.cons_append, List.singleton_append]

/-- Registration run, same id bound to a different channel: evict that
channel (delete from the directory, close it), then bind and reply. -/
theorem registerCore_find_other (ws : Chan) (key : String) (env : RegEnv) (D : Chan → Bool)
    (st : RoomState) (ex : UserInfo)
    (hfind : findUserById st (extractUserProfile env.parse env.rand key).id = some ex)
    (hex : ex.webSocket ≠ ws) :
    registerCore ws key env D st =
      if D ws then
        (⟨mapSet (mapDelete st.users ex.webSocket) ws (candInfo ws env key), st.sessions⟩,
         [Eff.closed ex.webSocket, Eff.dropped ws (regdFrame env key),
          sendEff D ws (Frame.error "Registration failed")])
      else
        ((broadcastUserList D
            ⟨mapSet (mapDelete st.users ex.webSocket) ws (candInfo ws env key),
             st.sessions⟩).1,
         Eff.closed ex.webSocket :: Eff.sent ws (regdFrame env key) ::
           (broadcastUserList D
             ⟨mapSet (mapDelete st.users ex.webSocket) ws (candInfo ws env key),
              st.sessions⟩).2) := by
  have hb : (ex.webSocket == ws) = false := beq_eq_false_iff_ne.mpr hex
  simp only [registerCore, candInfo, regdFrame, hfind, hb, Bool.false_eq_true, if_false,
    List.nil_append, List.cons_append, List.singleton_append]

def pgpKeyDemo : String :=
  "-----BEGIN PGP PUBLIC KEY BLOCK-----\n-----END PGP PUBLIC KEY BLOCK-----"

def regMsg : InMsg :=
  ⟨JSVal.str "register", JSVal.str pgpKeyDemo, JSVal.undef, JSVal.undef⟩

/-- Whether an effect carries a `Registration failed` error (attempted or
delivered). -/
def mentionsRegFailed : Eff → Bool
  | .sent _ (Frame.error msg) => msg == "Registration failed"
  | .dropped _ (Frame.error msg) => msg == "Registration failed"
  | _ => false

theorem mentionsRegFailed_broadcast (D : Chan → Bool) (st : RoomState) :
    ∀ e ∈ (broadcastUserList D st).2, mentionsRegFailed e = false := by
  intro e he
  unfold broadcastUserList at he
  rw [broadcast_spec] at he
  rcases List.mem_cons.mp he with rfl | he2
  · rfl
  · obtain ⟨c, _, rfl⟩ := List.mem_map.mp he2
    by_cases hD : D c = true <;> simp [hD, mentionsRegFailed]

/-- Claim C3, counterexample: channel 1 registers in an empty room with a
dead transport, so the `registered` reply send throws.  The catch arm
reports `Registration failed` — but the binding performed before the throw
persists: the directory afterwards holds one entry, so room state is not
what it was before the frame. -/
theorem c3_register_failure_counterexample :
    Eff.dropped 1 (Frame.error "Registration failed") ∈
      (handleRegister 1 regMsg ⟨none, "r"⟩ demoD ⟨[], [1]⟩).2 ∧
    (handleRegister 1 regMsg ⟨none, "r"⟩ demoD ⟨[], [1]⟩).1.users.length = 1 ∧
    (handleRegister 1 regMsg ⟨none, "r"⟩ demoD ⟨[], [1]⟩).1 ≠ (⟨[], [1]⟩ : RoomState) := by
  refine ⟨?_, ?_, ?_⟩ <;> decide

/-- Claim C3, amended: an unexpected failure after the precondition checks
(the uncaught throw site is the `registered` reply send) reports a generic
`Registration failed` error to the requester and skips the roster
rebroadcast, but the room state is not rolled back: the new binding and any
eviction performed before the failure persist (the session set is
untouched). -/
theorem c3_register_failure_amended (ws : Chan) (m : InMsg) (env : RegEnv) (D : Chan → Bool)
    (st : RoomState) (key : String)
    (hk : m.publicKey = JSVal.str key) (hne : key ≠ "")
    (hv : isValidPGPPublicKey key = true) (hD : D ws = true) :
    Eff.dropped ws (Frame.error "Registration failed") ∈ (handleRegister ws m env D st).2 ∧
    (ws, candInfo ws env key) ∈ (handleRegister ws m env D st).1.users ∧
    (handleRegister ws m env D st).1.sessions = st.sessions ∧
    (∀ e ∈ (handleRegister ws m env D st).2, isSerializedEff e = false) ∧
    (∀ ex, findUserById st (extractUserProfile env.parse env.rand key).id = some ex →
      ex.webSocket ≠ ws →
      Eff.closed ex.webSocket ∈ (handleRegister ws m env D st).2 ∧
      ∀ e ∈ (handleRegister ws m env D st).1.users, e.1 ≠ ex.webSocket) := by
  rw [handleRegister_run ws m env D st key hk hne hv]
  rcases hfind : findUserById st (extractUserProfile env.parse env.rand key).id with _ | ex
  · rw [registerCore_find_none ws key env D st hfind, if_pos hD]
    refine ⟨?_, ?_, rfl, ?_, ?_⟩
    · simp [sendEff, hD]
    · exact mapSet_self_mem st.users ws (candInfo ws env key)
    · intro e he
      rcases List.mem_cons.mp he with rfl | he2
      · rfl
      · rcases List.mem_cons.mp he2 with rfl | he3
        · simp [sendEff, hD, isSerializedEff]
        · cases he3
    · intro ex hfind2
      cases hfind2
  · by_cases hex : ex.webSocket = ws
    · rw [registerCore_find_self ws key env D st ex hfind hex, if_pos hD]
      refine ⟨?_, ?_, rfl, ?_, ?_⟩
      · simp [sendEff, hD]
      · exact mapSet_self_mem st.users ws (candInfo ws env key)
      · intro e he
        rcases List.mem_cons.mp he with rfl | he2
        · rfl
        · rcases List.mem_cons.mp he2 with rfl | he3
          · simp [sendEff, hD, isSerializedEff]
          · cases he3
      · intro ex2 hfind2 hex2
        cases hfind2
        exact absurd hex hex2
    · rw [registerCore_find_other ws key env D st ex hfind hex, if_pos hD]
      refine ⟨?_, ?_, rfl, ?_, ?_⟩
      · simp [sendEff, hD]
      · exact mapSet_self_mem (mapDelete st.users ex.webSocket) ws (candInfo ws env key)
      · intro e he
        rcases List.mem_cons.mp he with rfl | he2
        · rfl
        · rcases List.mem_cons.mp he2 with rfl | he3
          · rfl
          · rcases List.mem_cons.mp he3 with rfl | he4
            · simp [sendEff, hD, isSerializedEff]
            · cases he4
      · intro ex2 hfind2 hex2
        cases hfind2
        refine ⟨List.mem_cons_self _ _, ?_⟩
        intro e he
        rcases mapSet_mem he with rfl | he2
        · exact fun h => hex h.symm
        · exact (mem_mapDelete.mp he2).2

theorem c3_register_failure_amended_witness :
    (regMsg.publicKey = JSVal.str pgpKeyDemo ∧ pgpKeyDemo ≠ "" ∧
     isValidPGPPublicKey pgpKeyDemo = true ∧ demoD 1 = true) ∧
    (Eff.dropped 1 (Frame.error "Registration failed") ∈
       (handleRegister 1 regMsg ⟨none, "r"⟩ demoD ⟨[], [1]⟩).2 ∧
     (1, candInfo 1 ⟨none, "r"⟩ pgpKeyDemo) ∈
       (handleRegister 1 regMsg ⟨none, "r"⟩ demoD ⟨[], [1]⟩).1.users ∧
     (handleRegister 1 regMsg ⟨none, "r"⟩ demoD ⟨[], [1]⟩).1.sessions =
       (⟨[], [1]⟩ : RoomState).sessions ∧
     (∀ e ∈ (handleRegister 1 regMsg ⟨none, "r"⟩ demoD ⟨[], [1]⟩).2,
        isSerializedEff e = false) ∧
     (∀ ex, findUserById ⟨[], [1]⟩
          (extractUserProfile (⟨none, "r"⟩ : RegEnv).parse (⟨none, "r"⟩ : RegEnv).rand
            pgpKeyDemo).id = some ex →
        ex.webSocket ≠ 1 →
        Eff.closed ex.webSocket ∈
          (handleRegister 1 regMsg ⟨none, "r"⟩ demoD ⟨[], [1]⟩).2 ∧
        ∀ e ∈ (handleRegister 1 regMsg ⟨none, "r"⟩ demoD ⟨[], [1]⟩).1.users,
          e.1 ≠ ex.webSocket)) :=
  ⟨⟨rfl, by decide, by decide, by decide⟩,
   c3_register_failure_amended 1 regMsg ⟨none, "r"⟩ demoD ⟨[], [1]⟩ pgpKeyDemo rfl
     (by decide) (by decide) (by decide)⟩

/-- Claim C7: identity extraction is total — whatever the key-parse
collaborator does (including throwing, `parse = none`), a registration whose
preconditions pass and whose reply send does not throw always completes with
a `registered` frame carrying the extracted profile and never reports
`Registration failed`; a key-parse failure resolves through the
line-scanning fallback. -/
theorem c7_extract_total (ws : Chan) (m : InMsg) (env : RegEnv) (D : Chan → Bool)
    (st : RoomState) (key : String)
    (hk : m.publicKey = JSVal.str key) (hne : key ≠ "")
    (hv : isValidPGPPublicKey key = true) (hD : D ws = false) :
    Eff.sent ws (regdFrame env key) ∈ (handleRegister ws m env D st).2 ∧
    (∀ e ∈ (handleRegister ws m env D st).2, mentionsRegFailed e = false) ∧
    (env.parse = none →
      extractUserProfile env.parse env.rand key = fallbackExtractUserProfile key env.rand) := by
  have hDne : ¬(D ws = true) := by simp [hD]
  rw [handleRegister_run ws m env D st key hk hne hv]
  rcases hfind : findUserById st (extractUserProfile env.parse env.rand key).id with _ | ex
  · rw [registerCore_find_none ws key env D st hfind, if_neg hDne]
    refine ⟨List.mem_cons_self _ _, ?_, ?_⟩
    · intro e he
      rcases List.mem_cons.mp he with rfl | he2
      · rfl
      · exact mentionsRegFailed_broadcast D _ e he2
    · intro hp
      rw [hp]
      rfl
  · by_cases hex : ex.webSocket = ws
    · rw [registerCore_find_self ws key env D st ex hfind hex, if_neg hDne]
      refine ⟨List.mem_cons_self _ _, ?_, ?_⟩
      · intro e he
        rcases List.mem_cons.mp he with rfl | he2
        · rfl
        · exact mentionsRegFailed_broadcast D _ e he2
      · intro hp
        rw [hp]
        rfl
    · rw [registerCore_find_other ws key env D st ex hfind hex, if_neg hDne]
      refine ⟨List.mem_cons_of_mem _ (List.mem_cons_self _ _), ?_, ?_⟩
      · intro e he
        rcases List.mem_cons.mp he with rfl | he2
        · rfl
        · rcases List.mem_cons.mp he2 with rfl | he3
          · rfl
          · exact mentionsRegFailed_broadcast D _ e he3
      · intro hp
        rw [hp]
        rfl

theorem c7_extract_total_witness :
    (regMsg.publicKey = JSVal.str pgpKeyDemo ∧ pgpKeyDemo ≠ "" ∧
     isValidPGPPublicKey pgpKeyDemo = true ∧ noD 1 = false) ∧
    (Eff.sent 1 (regdFrame ⟨none, "r"⟩ pgpKeyDemo) ∈
       (handleRegister 1 regMsg ⟨none, "r"⟩ noD ⟨[], [1]⟩).2 ∧
     (∀ e ∈ (handleRegister 1 regMsg ⟨none, "r"⟩ noD ⟨[], [1]⟩).2,
        mentionsRegFailed e = false) ∧
     ((⟨none, "r"⟩ : RegEnv).parse = none →
       extractUserProfile (⟨none, "r"⟩ : RegEnv).parse (⟨none, "r"⟩ : RegEnv).rand
           pgpKeyDemo =
         fallbackExtractUserProfile pgpKeyDemo (⟨none, "r"⟩ : RegEnv).rand)) :=
  ⟨⟨rfl, by decide, by decide, rfl⟩,
   c7_extract_total 1 regMsg ⟨none, "r"⟩ noD ⟨[], [1]⟩ pgpKeyDemo rfl
     (by decide) (by decide) rfl⟩

/-- A registration whose preconditions pass and whose reply send does not
throw always emits the `registered` frame with the extracted profile. -/
theorem register_emits_regd (ws : Chan) (m : InMsg) (env : RegEnv) (D : Chan → Bool)
    (st : RoomState) (key : String)
    (hk : m.publicKey = JSVal.str key) (hne : key ≠ "")
    (hv : isValidPGPPublicKey key = true) (hD : D ws = false) :
    Eff.sent ws (regdFrame env key) ∈ (handleRegister ws m env D st).2 := by
  have hDne : ¬(D ws = true) := by simp [hD]
  rw [handleRegister_run ws m env D st key hk hne hv]
  rcases hfind : findUserById st (extractUserProfile env.parse env.rand key).id with _ | ex
  · rw [registerCore_find_none ws key env D st hfind, if_neg hDne]
    exact List.mem_cons_self _ _
  · by_cases hex : ex.webSocket = ws
    · rw [registerCore_find_self ws key env D st ex hfind hex, if_neg hDne]
      exact List.mem_cons_self _ _
    · rw [registerCore_find_other ws key env D st ex hfind hex, if_neg hDne]
      exact List.mem_cons_of_mem _ (List.mem_cons_self _ _)

/-- Claim C8, counterexample: key parsing succeeds with primary user-id
`" <a@b>"`, which matches the `Name <email>` pattern with groups `" "` and
`"a@b"`.  The claim requires `registered.profile` to reproduce the trimmed
name group (`""`) verbatim, but the code replaces the empty trimmed name by
the synthesized default `User_<rand>`. -/
theorem c8_profile_counterexample :
    nameEmailMatch " <a@b>" = some (" ", "a@b") ∧
    Eff.sent 0 (Frame.registered ⟨"AB", "User_zzzz", "a@b"⟩) ∈
      (handleRegister 0 regMsg ⟨some ⟨"ab", some " <a@b>"⟩, "zzzz"⟩ noD ⟨[], [0]⟩).2 ∧
    "User_zzzz" ≠ jsTrim " " := by
  refine ⟨by decide, by decide, by decide⟩

/-- Claim C8, amended: when key parsing succeeds, name and email are derived
from the primary user-id string in priority order — a `Name <email>` match
yields both groups trimmed, a string containing `@` is taken whole (trimmed)
as the email with name the part before the `@`, otherwise the trimmed string
is the name and the email is empty — and each derived component is
reproduced verbatim in `registered.profile` whenever it is non-empty after
trimming; an empty derived name (resp. email) is replaced by the synthesized
`User_<rand>` default (resp. lowercased whitespace-stripped name +
`@example.com`). -/
theorem c8_profile_amended (ws : Chan) (m : InMsg) (env : RegEnv) (D : Chan → Bool)
    (st : RoomState) (key : String) (pk : ParsedKey) (uid : String)
    (hk : m.publicKey = JSVal.str key) (hne : key ≠ "")
    (hv : isValidPGPPublicKey key = true)
    (hparse : env.parse = some pk) (huid : pk.userID = some uid) (hD : D ws = false) :
    (∀ g1 g2, nameEmailMatch uid = some (g1, g2) →
      ((jsTrim g1 ≠ "" → (extractUserProfile env.parse env.rand key).name = jsTrim g1) ∧
       (jsTrim g1 = "" →
         (extractUserProfile env.parse env.rand key).name = "User_" ++ env.rand) ∧
       (jsTrim g2 ≠ "" → (extractUserProfile env.parse env.rand key).email = jsTrim g2) ∧
       (jsTrim g2 = "" → (extractUserProfile env.parse env.rand key).email =
         stripWs (jsToLower (extractUserProfile env.parse env.rand key).name) ++
           "@example.com"))) ∧
    (nameEmailMatch uid = none → strContainsChar uid '@' = true →
      (jsTrim uid ≠ "" → (extractUserProfile env.parse env.rand key).email = jsTrim uid) ∧
      ((⟨(jsTrim uid).data.takeWhile (fun c => c != '@')⟩ : String) ≠ "" →
        (extractUserProfile env.parse env.rand key).name =
          (⟨(jsTrim uid).data.takeWhile (fun c => c != '@')⟩ : String)) ∧
      ((⟨(jsTrim uid).data.takeWhile (fun c => c != '@')⟩ : String) = "" →
        (extractUserProfile env.parse env.rand key).name = "User_" ++ env.rand)) ∧
    (nameEmailMatch uid = none → strContainsChar uid '@' = false →
      (jsTrim uid ≠ "" → (extractUserProfile env.parse env.rand key).name = jsTrim uid) ∧
      (jsTrim uid = "" →
        (extractUserProfile env.parse env.rand key).name = "User_" ++ env.rand) ∧
      (extractUserProfile env.parse env.rand key).email =
        stripWs (jsToLower (extractUserProfile env.parse env.rand key).name) ++
          "@example.com") ∧
    Eff.sent ws (Frame.registered
        ⟨(extractUserProfile env.parse env.rand key).id,
         (extractUserProfile env.parse env.rand key).name,
         (extractUserProfile env.parse env.rand key).email⟩) ∈
      (handleRegister ws m env D st).2 := by
  have hext : extractUserProfile env.parse env.rand key = extractOk pk env.rand := by
    rw [hparse]
    rfl
  refine ⟨?_, ?_, ?_, ?_⟩
  · intro g1 g2 hm
    have hpe : parseNameEmail uid = (jsTrim g1, jsTrim g2) := by
      unfold parseNameEmail
      rw [hm]
    have hv1 : extractOk pk env.rand =
        ⟨jsToUpper pk.fingerprint,
         if jsTrim g1 == "" then "User_" ++ env.rand else jsTrim g1,
         if jsTrim g2 == "" then
           stripWs (jsToLower
             (if jsTrim g1 == "" then "User_" ++ env.rand else jsTrim g1)) ++ "@example.com"
         else jsTrim g2⟩ := by
      unfold extractOk
      rw [huid]
      simp only [hpe]
    refine ⟨?_, ?_, ?_, ?_⟩
    · intro h1
      rw [hext, hv1]
      simp [beq_eq_false_iff_ne.mpr h1]
    · intro h1
      rw [hext, hv1]
      simp [h1]
    · intro h2
      rw [hext, hv1]
      simp [beq_eq_false_iff_ne.mpr h2]
    · intro h2
      rw [hext, hv1]
      simp [h2]
  · intro hm hat
    have hpe : parseNameEmail uid =
        ((⟨(jsTrim uid).data.takeWhile (fun c => c != '@')⟩ : String), jsTrim uid) := by
      unfold parseNameEmail
      rw [hm, hat]
      simp
    have hv1 : extractOk pk env.rand =
        ⟨jsToUpper pk.fingerprint,
         if (⟨(jsTrim uid).data.takeWhile (fun c => c != '@')⟩ : String) == "" then
           "User_" ++ env.rand
         else (⟨(jsTrim uid).data.takeWhile (fun c => c != '@')⟩ : String),
         if jsTrim uid == "" then
           stripWs (jsToLower
             (if (⟨(jsTrim uid).data.takeWhile (fun c => c != '@')⟩ : String) == "" then
               "User_" ++ env.rand
             else (⟨(jsTrim uid).data.takeWhile (fun c => c != '@')⟩ : String))) ++
               "@example.com"
         else jsTrim uid⟩ := by
      unfold extractOk
      rw [huid]
      simp only [hpe]
    refine ⟨?_, ?_, ?_⟩
    · intro h1
      rw [hext, hv1]
      simp [beq_eq_false_iff_ne.mpr h1]
    · intro h1
      rw [hext, hv1]
      simp [beq_eq_false_iff_ne.mpr h1]
    · intro h1
      rw [hext, hv1]
      simp [h1]
  · intro hm hat
    have hpe : parseNameEmail uid = (jsTrim uid, "") := by
      unfold parseNameEmail
      rw [hm, hat]
      simp
    have hv1 : extractOk pk env.rand =
        ⟨jsToUpper pk.fingerprint,
         if jsTrim uid == "" then "User_" ++ env.rand else jsTrim uid,
         stripWs (jsToLower
           (if jsTrim uid == "" then "User_" ++ env.rand else jsTrim uid)) ++
             "@example.com"⟩ := by
      unfold extractOk
      rw [huid]
      simp only [hpe]
      simp
    refine ⟨?_, ?_, ?_⟩
    · intro h1
      rw [hext, hv1]
      simp [beq_eq_false_iff_ne.mpr h1]
    · intro h1
      rw [hext, hv1]
      simp [h1]
    · rw [hext, hv1]
  · exact register_emits_regd ws m env D st key hk hne hv hD

theorem c8_profile_amended_witness :
    (regMsg.publicKey = JSVal.str pgpKeyDemo ∧ pgpKeyDemo ≠ "" ∧
     isValidPGPPublicKey pgpKeyDemo = true ∧
     (⟨some ⟨"ab", some "Alice <alice@x.com>"⟩, "zzzz"⟩ : RegEnv).parse =
       some ⟨"ab", some "Alice <alice@x.com>"⟩ ∧
     (⟨"ab", some "Alice <alice@x.com>"⟩ : ParsedKey).userID = some "Alice <alice@x.com>" ∧
     noD 0 = false ∧
     nameEmailMatch "Alice <alice@x.com>" = some ("Alice", "alice@x.com") ∧
     jsTrim "Alice" ≠ "" ∧ jsTrim "alice@x.com" ≠ "") ∧
    ((extractUserProfile (some ⟨"ab", some "Alice <alice@x.com>"⟩) "zzzz" pgpKeyDemo).name =
        jsTrim "Alice" ∧
     (extractUserProfile (some ⟨"ab", some "Alice <alice@x.com>"⟩) "zzzz" pgpKeyDemo).email =
        jsTrim "alice@x.com" ∧
     Eff.sent 0 (Frame.registered
        ⟨(extractUserProfile (some ⟨"ab", some "Alice <alice@x.com>"⟩) "zzzz" pgpKeyDemo).id,
         (extractUserProfile (some ⟨"ab", some "Alice <alice@x.com>"⟩) "zzzz" pgpKeyDemo).name,
         (extractUserProfile (some ⟨"ab", some "Alice <alice@x.com>"⟩) "zzzz"
            pgpKeyDemo).email⟩) ∈
      (handleRegister 0 regMsg ⟨some ⟨"ab", some "Alice <alice@x.com>"⟩, "zzzz"⟩ noD
          ⟨[], [0]⟩).2) :=
  have h := c8_profile_amended 0 regMsg ⟨some ⟨"ab", some "Alice <alice@x.com>"⟩, "zzzz"⟩ noD
    ⟨[], [0]⟩ pgpKeyDemo ⟨"ab", some "Alice <alice@x.com>"⟩ "Alice <alice@x.com>" rfl
    (by decide) (by decide) rfl rfl rfl
  ⟨⟨rfl, by decide, by decide, rfl, rfl, rfl, by decide, by decide, by decide⟩,
   ⟨((h.1 "Alice" "alice@x.com" (by decide)).1 (by decide)),
    ((h.1 "Alice" "alice@x.com" (by decide)).2.2.1 (by decide)),
    h.2.2.2⟩⟩

/-- Claim C2: after every completed registration transition the directory
contains at most one channel per identity id; when the extracted id was
bound to a different channel, that entry is removed and the channel closed,
and the directory ends with exactly one live entry for that id — the
requesting channel's fresh binding. -/
theorem c2_unique_identity (ws : Chan) (m : InMsg) (env : RegEnv) (D : Chan → Bool)
    (st : RoomState) (key : String)
    (hk : m.publicKey = JSVal.str key) (hne : key ≠ "")
    (hv : isValidPGPPublicKey key = true)
    (hkeys : (st.users.map (fun e => e.1)).Nodup)
    (hids : (st.users.map (fun e => e.2.id)).Nodup)
    (hwsc : ∀ e ∈ st.users, e.2.webSocket = e.1) :
    (handleRegister ws m env D st).1.users.filter
        (fun e => e.2.id == (extractUserProfile env.parse env.rand key).id) =
      [(ws, candInfo ws env key)] ∧
    ((handleRegister ws m env D st).1.users.map (fun e => e.2.id)).Nodup ∧
    (∀ ex, findUserById st (extractUserProfile env.parse env.rand key).id = some ex →
      ex.webSocket ≠ ws →
      Eff.closed ex.webSocket ∈ (handleRegister ws m env D st).2 ∧
      ∀ e ∈ (handleRegister ws m env D st).1.users, e.1 ≠ ex.webSocket) := by
  have hidswap : (extractUserProfile env.parse env.rand key).id
      = (candInfo ws env key).id := rfl
  rw [handleRegister_run ws m env D st key hk hne hv]
  rcases hfind : findUserById st (extractUserProfile env.parse env.rand key).id with _ | ex
  · have hother : ∀ e ∈ st.users, e.1 ≠ ws → e.2.id ≠ (candInfo ws env key).id := by
      intro e he _
      exact findUserById_none hfind e he
    rw [registerCore_find_none ws key env D st hfind]
    cases hDw : D ws with
    | true =>
      rw [if_pos rfl]
      refine ⟨?_, ?_, ?_⟩
      · simp only [hidswap]
        exact filter_id_mapSet st.users ws (candInfo ws env key) hother hkeys
      · exact nodup_ids_mapSet st.users ws (candInfo ws env key) hother hkeys hids
      · intro ex hfind2
        cases hfind2
    | false =>
      rw [if_neg (by simp)]
      refine ⟨?_, ?_, ?_⟩
      · simp only [hidswap, broadcastUserList_state]
        rw [filter_swap, filter_id_mapSet st.users ws (candInfo ws env key) hother hkeys]
        simp [hDw]
      · simp only [broadcastUserList_state]
        exact nodup_map_filter _ _
          (nodup_ids_mapSet st.users ws (candInfo ws env key) hother hkeys hids)
      · intro ex hfind2
        cases hfind2
  · by_cases hex : ex.webSocket = ws
    · have hother : ∀ e ∈ st.users, e.1 ≠ ws → e.2.id ≠ (candInfo ws env key).id := by
        intro e he hews
        exact no_other_id hids hwsc hfind e he (by rw [hex]; exact hews)
      rw [registerCore_find_self ws key env D st ex hfind hex]
      cases hDw : D ws with
      | true =>
        rw [if_pos rfl]
        refine ⟨?_, ?_, ?_⟩
        · simp only [hidswap]
          exact filter_id_mapSet st.users ws (candInfo ws env key) hother hkeys
        · exact nodup_ids_mapSet st.users ws (candInfo ws env key) hother hkeys hids
        · intro ex2 hfind2 hex2
          cases hfind2
          exact absurd hex hex2
      | false =>
        rw [if_neg (by simp)]
        refine ⟨?_, ?_, ?_⟩
        · simp only [hidswap, broadcastUserList_state]
          rw [filter_swap, filter_id_mapSet st.users ws (candInfo ws env key) hother hkeys]
          simp [hDw]
        · simp only [broadcastUserList_state]
          exact nodup_map_filter _ _
            (nodup_ids_mapSet st.users ws (candInfo ws env key) hother hkeys hids)
        · intro ex2 hfind2 hex2
          cases hfind2
          exact absurd hex hex2
    · have hother1 : ∀ e ∈ mapDelete st.users ex.webSocket, e.1 ≠ ws →
          e.2.id ≠ (candInfo ws env key).id := by
        intro e he _
        exact no_other_id hids hwsc hfind e (mem_mapDelete.mp he).1 (mem_mapDelete.mp he).2
      have hkeys1 : ((mapDelete st.users ex.webSocket).map (fun e => e.1)).Nodup :=
        nodup_map_filter _ _ hkeys
      have hids1 : ((mapDelete st.users ex.webSocket).map (fun e => e.2.id)).Nodup :=
        nodup_map_filter _ _ hids
      rw [registerCore_find_other ws key env D st ex hfind hex]
      cases hDw : D ws with
      | true =>
        rw [if_pos rfl]
        refine ⟨?_, ?_, ?_⟩
        · simp only [hidswap]
          exact filter_id_mapSet _ ws (candInfo ws env key) hother1 hkeys1
        · exact nodup_ids_mapSet _ ws (candInfo ws env key) hother1 hkeys1 hids1
        · intro ex2 hfind2 hex2
          cases hfind2
          refine ⟨List.mem_cons_self _ _, ?_⟩
          intro e he
          rcases mapSet_mem he with he1 | he2
          · rw [he1]
            exact fun h => hex h.symm
          · exact (mem_mapDelete.mp he2).2
      | false =>
        rw [if_neg (by simp)]
        refine ⟨?_, ?_, ?_⟩
        · simp only [hidswap, broadcastUserList_state]
          rw [filter_swap, filter_id_mapSet _ ws (candInfo ws env key) hother1 hkeys1]
          simp [hDw]
        · simp only [broadcastUserList_state]
          exact nodup_map_filter _ _
            (nodup_ids_mapSet _ ws (candInfo ws env key) hother1 hkeys1 hids1)
        · intro ex2 hfind2 hex2
          cases hfind2
          refine ⟨List.mem_cons_self _ _, ?_⟩
          intro e he
          simp only [broadcastUserList_state] at he
          have he' := (List.mem_filter.mp he).1
          rcases mapSet_mem he' with he1 | he2
          · rw [he1]
            exact fun h => hex h.symm
          · exact (mem_mapDelete.mp he2).2

def evUser : UserInfo := ⟨"EVID", "n", "e", "k", 5, UserRole.guest⟩

def c2Env : RegEnv := ⟨some ⟨"evid", some "Alice <alice@x.com>"⟩, "r"⟩

def c2State : RoomState := ⟨[(5, evUser)], [5, 1]⟩

theorem c2_unique_identity_witness :
    (regMsg.publicKey = JSVal.str pgpKeyDemo ∧ pgpKeyDemo ≠ "" ∧
     isValidPGPPublicKey pgpKeyDemo = true ∧
     (c2State.users.map (fun e => e.1)).Nodup ∧
     (c2State.users.map (fun e => e.2.id)).Nodup ∧
     (∀ e ∈ c2State.users, e.2.webSocket = e.1)) ∧
    ((handleRegister 1 regMsg c2Env noD c2State).1.users.filter
        (fun e => e.2.id == (extractUserProfile c2Env.parse c2Env.rand pgpKeyDemo).id) =
      [(1, candInfo 1 c2Env pgpKeyDemo)] ∧
     ((handleRegister 1 regMsg c2Env noD c2State).1.users.map (fun e => e.2.id)).Nodup ∧
     (∀ ex, findUserById c2State
          (extractUserProfile c2Env.parse c2Env.rand pgpKeyDemo).id = some ex →
        ex.webSocket ≠ 1 →
        Eff.closed ex.webSocket ∈ (handleRegister 1 regMsg c2Env noD c2State).2 ∧
        ∀ e ∈ (handleRegister 1 regMsg c2Env noD c2State).1.users, e.1 ≠ ex.webSocket)) :=
  ⟨⟨rfl, by decide, by decide, by decide, by decide, by decide⟩,
   c2_unique_identity 1 regMsg c2Env noD c2State pgpKeyDemo rfl (by decide) (by decide)
     (by decide) (by decide) (by decide)⟩

/-- Claim C10: re-registration eviction mutates only the directory — the
evicted channel is deleted from the directory and closed but stays in the
session set, so it is still a target of the ensuing `userList` rebroadcast
attempt, and it leaves the session set only through a delivery failure of
its own (or a later close/error event). -/
theorem c10_eviction_sessions (ws : Chan) (m : InMsg) (env : RegEnv) (D : Chan → Bool)
    (st : RoomState) (key : String) (ex : UserInfo)
    (hk : m.publicKey = JSVal.str key) (hne : key ≠ "")
    (hv : isValidPGPPublicKey key = true)
    (hfind : findUserById st (extractUserProfile env.parse env.rand key).id = some ex)
    (hex : ex.webSocket ≠ ws)
    (hDws : D ws = false)
    (hsess : ex.webSocket ∈ st.sessions) :
    (handleRegister ws m env D st).1.sessions = st.sessions.filter (fun c => !(D c)) ∧
    Eff.closed ex.webSocket ∈ (handleRegister ws m env D st).2 ∧
    (∀ e ∈ (handleRegister ws m env D st).1.users, e.1 ≠ ex.webSocket) ∧
    (∃ roster, (if D ex.webSocket then Eff.dropped ex.webSocket (Frame.userList roster)
        else Eff.sent ex.webSocket (Frame.userList roster)) ∈
      (handleRegister ws m env D st).2) ∧
    (ex.webSocket ∈ (handleRegister ws m env D st).1.sessions ↔ D ex.webSocket = false) := by
  rw [handleRegister_run ws m env D st key hk hne hv,
    registerCore_find_other ws key env D st ex hfind hex, if_neg (by simp [hDws])]
  refine ⟨?_, List.mem_cons_self _ _, ?_, ?_, ?_⟩
  · simp only [broadcastUserList_state]
  · intro e he
    simp only [broadcastUserList_state] at he
    have he' := (List.mem_filter.mp he).1
    rcases mapSet_mem he' with he1 | he2
    · rw [he1]
      exact fun h => hex h.symm
    · exact (mem_mapDelete.mp he2).2
  · refine ⟨rosterOf ⟨mapSet (mapDelete st.users ex.webSocket) ws (candInfo ws env key),
      st.sessions⟩, ?_⟩
    refine List.mem_cons_of_mem _ (List.mem_cons_of_mem _ ?_)
    unfold broadcastUserList
    rw [broadcast_spec]
    exact List.mem_cons_of_mem _ (List.mem_map_of_mem _ hsess)
  · simp only [broadcastUserList_state]
    rw [List.mem_filter]
    simp [hsess]

theorem c10_eviction_sessions_witness :
    (regMsg.publicKey = JSVal.str pgpKeyDemo ∧ pgpKeyDemo ≠ "" ∧
     isValidPGPPublicKey pgpKeyDemo = true ∧
     findUserById c2State (extractUserProfile c2Env.parse c2Env.rand pgpKeyDemo).id =
       some evUser ∧
     evUser.webSocket ≠ 1 ∧ noD 1 = false ∧ evUser.webSocket ∈ c2State.sessions) ∧
    ((handleRegister 1 regMsg c2Env noD c2State).1.sessions =
       c2State.sessions.filter (fun c => !(noD c)) ∧
     Eff.closed evUser.webSocket ∈ (handleRegister 1 regMsg c2Env noD c2State).2 ∧
     (∀ e ∈ (handleRegister 1 regMsg c2Env noD c2State).1.users,
        e.1 ≠ evUser.webSocket) ∧
     (∃ roster, (if noD evUser.webSocket then
          Eff.dropped evUser.webSocket (Frame.userList roster)
        else Eff.sent evUser.webSocket (Frame.userList roster)) ∈
       (handleRegister 1 regMsg c2Env noD c2State).2) ∧
     (evUser.webSocket ∈ (handleRegister 1 regMsg c2Env noD c2State).1.sessions ↔
        noD evUser.webSocket = false)) :=
  ⟨⟨rfl, by decide, by decide, by decide, by decide, rfl, by decide⟩,
   c10_eviction_sessions 1 regMsg c2Env noD c2State pgpKeyDemo evUser rfl (by decide)
     (by decide) (by decide) (by decide) rfl (by decide)⟩

example : generateUserIdFromKey "" = "00000000" := by decide
example : generateUserIdFromKey "a" = "00000061" := by decide
example : nameEmailMatch "Alice <alice@x.com>" = some ("Alice", "alice@x.com") := by decide
example : nameEmailMatch " <a@b>" = some (" ", "a@b") := by decide
example : parseNameEmail "bob@x.com" = ("bob", "bob@x.com") := by decide

end WorkerChat
